import Mathlib

/-!
Verification of the MatchZoo token-embedding module (`matchzoo/embedding.py`).

The module is shallowly embedded as follows.

* Python exceptions become constructors of `Matchzoo.PyError`:
  `keyError` models the `KeyError` raised by a dict / `DataFrame.loc` miss
  (the spec's `UnknownTokenError`), `parserError` models the pandas
  `ParserError` raised when a row has more fields than expected (the spec's
  `MalformedRowError`), `emptyData` models pandas `EmptyDataError`,
  `valueError` models the `ValueError` raised by `np.vstack` on an empty or
  ragged input, `indexError` models a NumPy out-of-range row access, and
  `attributeNone` models the `AttributeError` raised by evaluating
  `None.shape`.  `unsetMatrix` is a spec-side designated error used only to
  state the guarded accessor that the spec asks for (claim C7).

* `pd.read_table(path, sep=" ", index_col=0, header=None, skiprows=k,
  quoting=q)` becomes `readTable`: lines are split on single spaces, with
  csv-style minimal quoting (`splitMin`) by default and literal splitting
  (`splitNone`) under `csv.QUOTE_NONE`; the expected field count is taken
  from the first remaining line; a longer row aborts with `parserError` and
  a shorter row is padded with `NaN` cells, exactly as the pandas C parser
  does; column 0 becomes the row label (the token).  Cell values are kept as
  the raw text fields (`Cell.raw`) — the numeric conversion pandas applies
  is value-preserving and identical on every construction path, so it
  cancels in every property stated here; missing cells are `Cell.nan`.

* `np.vstack` becomes `npVstack` (fails on an empty list of arrays, stacks
  1-D rows and 2-D blocks otherwise), `np.random.uniform(lo, hi, (n, d))`
  becomes `npRandomUniformM` driven by an abstract randomness source
  `rand : Nat → Nat → ℚ` whose contract `0 ≤ rand i j < 1` models sampling
  from the half-open unit interval.

* The classes become `EmbeddingBase` (the abstract base: `_vocab` dict plus
  an optional `_matrix`, with the `dimension` property and the `matrix`
  setter), `RandomInitializedEmbedding` and `PretrainedEmbedding` (whose
  `_vocab` is the array of row labels captured from `_matrix.index.values`
  at construction time).  `Word2Vec` and `Glove` differ exactly as in the
  source: `skiprows=1` with default quoting versus no skip with
  `QUOTE_NONE`.
-/

namespace Matchzoo

/-- Python-level failures observable from the embedding module. -/
inductive PyError where
  | keyError (tok : String)
  | valueError
  | parserError (saw : Nat)
  | emptyData
  | indexError
  | attributeNone
  | unsetMatrix
  deriving DecidableEq

/-- A cell of the parsed table: a raw text field, or NaN for a missing field. -/
inductive Cell where
  | nan
  | raw (s : String)
  deriving DecidableEq

/-- The double-quote character, csv's default `quotechar`. -/
def quoteChar : Char := Char.ofNat 34

/-- Split on single spaces with no quote handling (`csv.QUOTE_NONE`). -/
def splitNoneGo : List Char → String → List String
  | [], acc => [acc]
  | c :: cs, acc =>
    if c = ' ' then acc :: splitNoneGo cs "" else splitNoneGo cs (acc.push c)

/-- Field splitting of one line under `quoting=csv.QUOTE_NONE`. -/
def splitNone (s : String) : List String := splitNoneGo s.data ""

/-- Split on single spaces with csv minimal quoting: a field that starts
with the quote character is read up to the closing quote, quotes stripped. -/
def splitMinGo : List Char → String → Bool → List String
  | [], acc, _ => [acc]
  | c :: cs, acc, true =>
    if c = quoteChar then splitMinGo cs acc false
    else splitMinGo cs (acc.push c) true
  | c :: cs, acc, false =>
    if c = ' ' then acc :: splitMinGo cs "" false
    else if c = quoteChar ∧ acc = "" then splitMinGo cs acc true
    else splitMinGo cs (acc.push c) false

/-- Field splitting of one line under pandas' default quoting. -/
def splitMin (s : String) : List String := splitMinGo s.data "" false

/-- The splitter selected by the `quoting` argument of `pd.read_table`. -/
def lineSplit (quoteNone : Bool) : String → List String :=
  fun l => if quoteNone then splitNone l else splitMin l

/-- A pandas DataFrame as produced by `pd.read_table(..., index_col=0)`:
row labels, data rows, and the data column count (`shape[1]`). -/
structure DataFrame where
  index : List String
  rows : List (List Cell)
  ncols : Nat
  deriving DecidableEq

/-- Well-formedness pandas guarantees for every parsed frame: one data row
per label and every data row padded to the full column count. -/
def DataFrame.WF (df : DataFrame) : Prop :=
  df.rows.length = df.index.length ∧ ∀ r ∈ df.rows, r.length = df.ncols

/-- Pad a short row with NaN cells up to `d` data columns, as the pandas
C parser does for a line with fewer fields than expected. -/
def padRow (d : Nat) (fields : List String) : List Cell :=
  fields.map Cell.raw ++ List.replicate (d - fields.length) Cell.nan

/-- Left-to-right effectful map, as a Python list comprehension evaluates:
the first raised exception propagates and aborts the whole construction. -/
def exceptMapList {α β : Type} (f : α → Except PyError β) :
    List α → Except PyError (List β)
  | [] => .ok []
  | x :: xs =>
    match f x with
    | .error e => .error e
    | .ok y =>
      match exceptMapList f xs with
      | .error e => .error e
      | .ok ys => .ok (y :: ys)

/-- Tokenize one line against the expected field count `n`: a line with more
fields than `n` is a fatal `ParserError`, otherwise the fields are kept. -/
def rowFields (split : String → List String) (n : Nat) (l : String) :
    Except PyError (List String) :=
  let fs := split l
  if n < fs.length then .error (.parserError fs.length) else .ok fs

/-- Core of `pd.read_table` on the lines that remain after `skiprows` and
blank-line skipping: the first line fixes the field count, every line is
tokenized against it, field 0 becomes the label, the rest the data row. -/
def readTableCore (quoteNone : Bool) : List String → Except PyError DataFrame
  | [] => .error .emptyData
  | first :: rest =>
    let split := lineSplit quoteNone
    let n := (split first).length
    match exceptMapList (rowFields split n) (first :: rest) with
    | .error e => .error e
    | .ok fss =>
      .ok { index := fss.map (fun fs => fs.headD "")
            rows := fss.map (fun fs => padRow (n - 1) fs.tail)
            ncols := n - 1 }

/-- `pd.read_table(path, sep=" ", index_col=0, header=None, skiprows, quoting)`
on a file given as its list of lines. -/
def readTable (quoteNone : Bool) (skiprows : Nat) (lines : List String) :
    Except PyError DataFrame :=
  readTableCore quoteNone ((lines.drop skiprows).filter (fun l => l != ""))

/-- A NumPy value returned by `DataFrame.loc[...].values`: a 1-D vector when
the label is unique, a 2-D block when several rows share the label. -/
inductive NDVal (α : Type) where
  | vec (r : List α)
  | mat (rs : List (List α))
  deriving DecidableEq

/-- The rows a value contributes when stacked by `np.vstack`. -/
def NDVal.toRows {α : Type} : NDVal α → List (List α)
  | .vec r => [r]
  | .mat rs => rs

/-- `np.vstack`: fails with `ValueError` on an empty input ("need at least
one array to concatenate") or on ragged rows, else stacks all rows. -/
def npVstack {α : Type} (vs : List (NDVal α)) : Except PyError (List (List α)) :=
  match vs with
  | [] => .error .valueError
  | v :: rest =>
    let rows := ((v :: rest).map NDVal.toRows).flatten
    if rows.all (fun r => r.length == (rows.headD []).length) then .ok rows
    else .error .valueError

/-- The rows of `df` whose label equals `t`, in storage order
(what `df.loc[t]` selects). -/
def DataFrame.matchRows (df : DataFrame) (t : String) : List (List Cell) :=
  ((df.index.zip df.rows).filter (fun p => decide (p.1 = t))).map Prod.snd

/-- `df.loc[t].values`: `KeyError` when no row is labelled `t`, the single
row as a vector when exactly one is, the block of all matches otherwise. -/
def DataFrame.loc (df : DataFrame) (t : String) : Except PyError (NDVal Cell) :=
  match df.matchRows t with
  | [] => .error (.keyError t)
  | [r] => .ok (.vec r)
  | r :: r2 :: rs => .ok (.mat (r :: r2 :: rs))

/-- Total companion of `DataFrame.loc`, used to state its success value. -/
def DataFrame.locVal (df : DataFrame) (t : String) : NDVal Cell :=
  match df.matchRows t with
  | [] => .vec []
  | [r] => .vec r
  | r :: r2 :: rs => .mat (r :: r2 :: rs)

/-- A constructed `PretrainedEmbedding`: the parsed `_matrix` plus the
`_vocab` label array captured from `self._matrix.index.values` in
`__init__` (and not updated afterwards). -/
structure PretrainedEmbedding where
  matrix : DataFrame
  vocabArr : List String
  deriving DecidableEq

/-- `PretrainedEmbedding.__init__`: `self._vocab = self._matrix.index.values`. -/
def mkPretrained (df : DataFrame) : PretrainedEmbedding :=
  { matrix := df, vocabArr := df.index }

/-- `__contains__`: `entity in self._vocab`. -/
def PretrainedEmbedding.containsTok (e : PretrainedEmbedding) (t : String) : Bool :=
  decide (t ∈ e.vocabArr)

/-- `PretrainedEmbedding._entity_to_vec`: `self._matrix.loc[entity].values`. -/
def PretrainedEmbedding.entityToVec (e : PretrainedEmbedding) (t : String) :
    Except PyError (NDVal Cell) :=
  e.matrix.loc t

/-- `__getitem__` on a list: `np.vstack([self._entity_to_vec(x) for x in entities])`. -/
def PretrainedEmbedding.getItemList (e : PretrainedEmbedding) (ts : List String) :
    Except PyError (List (List Cell)) :=
  match exceptMapList e.entityToVec ts with
  | .error er => .error er
  | .ok vs => npVstack vs

/-- The `dimension` property on a constructed pretrained embedding:
`self._matrix.shape[1]`. -/
def PretrainedEmbedding.dimension (e : PretrainedEmbedding) : Nat :=
  e.matrix.ncols

/-- The `matrix` setter: `self._matrix = matrix_instance`, touching nothing else. -/
def PretrainedEmbedding.setMatrix (e : PretrainedEmbedding) (df : DataFrame) :
    PretrainedEmbedding :=
  { e with matrix := df }

/-- `Glove.__init__` from file content: `pd.read_table(..., header=None,
quoting=csv.QUOTE_NONE)` (no rows skipped), then vocab capture. -/
def gloveLoad (lines : List String) : Except PyError PretrainedEmbedding :=
  (readTable true 0 lines).map mkPretrained

/-- `Word2Vec.__init__` from file content: `pd.read_table(..., header=None,
skiprows=1)` with default quoting, then vocab capture. -/
def word2vecLoad (lines : List String) : Except PyError PretrainedEmbedding :=
  (readTable false 1 lines).map mkPretrained

/-- `np.random.uniform(lo, hi, (n, d))` driven by a randomness source
`rand` with values in the unit interval: entry `(i, j)` is
`lo + (hi - lo) * rand i j`. -/
def npRandomUniformM (lo hi : ℚ) (rand : Nat → Nat → ℚ) (n d : Nat) :
    List (List ℚ) :=
  (List.range n).map (fun i => (List.range d).map (fun j => lo + (hi - lo) * rand i j))

/-- A constructed `RandomInitializedEmbedding`: the `_vocab` term-index dict
(an association list, keys unique in a Python dict), the `_matrix` rows and
the matrix column count (`shape[1]`, which is the requested dimension even
for an empty vocabulary). -/
structure RandomInitializedEmbedding where
  vocab : List (String × Nat)
  matrixRows : List (List ℚ)
  matrixNcols : Nat
  deriving DecidableEq

/-- `RandomInitializedEmbedding.__init__`: stores the vocab dict and fills
`self._matrix = np.random.uniform(-random_scale, random_scale,
(len(self._vocab), self._dimension))`. -/
def randomInit (vocab : List (String × Nat)) (dimension : Nat)
    (randomScale : ℚ) (rand : Nat → Nat → ℚ) : RandomInitializedEmbedding :=
  { vocab := vocab
    matrixRows := npRandomUniformM (-randomScale) randomScale rand vocab.length dimension
    matrixNcols := dimension }

/-- `__contains__`: `entity in self._vocab` on the dict. -/
def RandomInitializedEmbedding.containsTok (e : RandomInitializedEmbedding)
    (t : String) : Bool :=
  (e.vocab.find? (fun p => decide (p.1 = t))).isSome

/-- `RandomInitializedEmbedding._entity_to_vec`:
`self._matrix[self._vocab[entity]]` — a dict miss is a `KeyError`, an
out-of-range row is an `IndexError`. -/
def RandomInitializedEmbedding.entityToVec (e : RandomInitializedEmbedding)
    (t : String) : Except PyError (NDVal ℚ) :=
  match e.vocab.find? (fun p => decide (p.1 = t)) with
  | none => .error (.keyError t)
  | some p =>
    match e.matrixRows.get? p.2 with
    | none => .error .indexError
    | some r => .ok (.vec r)

/-- The matrix row backing a contained token, as a total function. -/
def RandomInitializedEmbedding.rowOf (e : RandomInitializedEmbedding)
    (t : String) : List ℚ :=
  match e.vocab.find? (fun p => decide (p.1 = t)) with
  | none => []
  | some p =>
    match e.matrixRows.get? p.2 with
    | none => []
    | some r => r

/-- `__getitem__` on a list for the random variant. -/
def RandomInitializedEmbedding.getItemList (e : RandomInitializedEmbedding)
    (ts : List String) : Except PyError (List (List ℚ)) :=
  match exceptMapList e.entityToVec ts with
  | .error er => .error er
  | .ok vs => npVstack vs

/-- The `dimension` property on a constructed random embedding:
`self._matrix.shape[1]`. -/
def RandomInitializedEmbedding.dimension (e : RandomInitializedEmbedding) : Nat :=
  e.matrixNcols

/-- A NumPy matrix with its `shape[1]`, for the abstract base state. -/
structure NpMatrix where
  rows : List (List ℚ)
  ncols : Nat
  deriving DecidableEq

/-- The abstract `Embedding` base state: `self._vocab` (a dict) and
`self._matrix`, which `Embedding.__init__` leaves as `None`. -/
structure EmbeddingBase where
  vocab : List (String × Nat)
  matrix : Option NpMatrix
  deriving DecidableEq

/-- `Embedding.__init__`: `self._vocab = {}; self._matrix = None`. -/
def EmbeddingBase.mkInit : EmbeddingBase :=
  { vocab := [], matrix := none }

/-- The `dimension` property of the base class, `self._matrix.shape[1]`:
on an unset matrix this evaluates `None.shape` and so raises
`AttributeError`; on a set matrix it returns the column count. -/
def EmbeddingBase.dimension (e : EmbeddingBase) : Except PyError Nat :=
  match e.matrix with
  | none => .error .attributeNone
  | some m => .ok m.ncols

/-- Modelled from the spec: the guarded accessor the spec asks for, which
"fails if matrix is unset" with a designated error instead of dereferencing
the null matrix, and returns the column count otherwise. -/
def EmbeddingBase.dimensionSpec (e : EmbeddingBase) : Except PyError Nat :=
  match e.matrix with
  | none => .error .unsetMatrix
  | some m => .ok m.ncols

/-- The `matrix` setter on the base state: `self._matrix = matrix_instance`. -/
def EmbeddingBase.setMatrix (e : EmbeddingBase) (m : Option NpMatrix) :
    EmbeddingBase :=
  { e with matrix := m }

/-- `__contains__` on the base state: `entity in self._vocab`. -/
def EmbeddingBase.containsTok (e : EmbeddingBase) (t : String) : Bool :=
  (e.vocab.find? (fun p => decide (p.1 = t))).isSome

/-! ### Lemmas about the effectful left-to-right map -/

theorem exceptMapList_congr {α β : Type} (f g : α → Except PyError β) :
    ∀ l : List α, (∀ x ∈ l, f x = g x) → exceptMapList f l = exceptMapList g l
  | [], _ => rfl
  | x :: xs, h => by
    simp only [exceptMapList]
    rw [h x (List.mem_cons_self x xs),
      exceptMapList_congr f g xs (fun y hy => h y (List.mem_cons_of_mem x hy))]

theorem exceptMapList_ok {α β : Type} (f : α → Except PyError β) (g : α → β) :
    ∀ l : List α, (∀ x ∈ l, f x = .ok (g x)) → exceptMapList f l = .ok (l.map g)
  | [], _ => rfl
  | x :: xs, h => by
    simp only [exceptMapList]
    rw [h x (List.mem_cons_self x xs),
      exceptMapList_ok f g xs (fun y hy => h y (List.mem_cons_of_mem x hy))]
    rfl

theorem exceptMapList_error_exists {α β : Type} (f : α → Except PyError β) :
    ∀ l : List α, (∃ x ∈ l, ∃ e, f x = .error e) →
      ∃ e, exceptMapList f l = .error e
  | [], h => absurd h (by simp)
  | x :: xs, h => by
    simp only [exceptMapList]
    cases hfx : f x with
    | error e => exact ⟨e, rfl⟩
    | ok y =>
      obtain ⟨z, hz, e, hze⟩ := h
      rcases List.mem_cons.mp hz with rfl | hz2
      · rw [hfx] at hze; cases hze
      · obtain ⟨e2, he2⟩ := exceptMapList_error_exists f xs ⟨z, hz2, e, hze⟩
        rw [he2]
        exact ⟨e2, rfl⟩

theorem exceptMapList_error_mem {α β : Type} (f : α → Except PyError β) :
    ∀ l : List α, ∀ e, exceptMapList f l = .error e → ∃ x ∈ l, f x = .error e
  | [], e, h => by simp only [exceptMapList] at h; cases h
  | x :: xs, e, h => by
    simp only [exceptMapList] at h
    split at h
    · rename_i e2 heq
      cases h
      exact ⟨x, List.mem_cons_self x xs, heq⟩
    · rename_i y heq
      split at h
      · rename_i e2 heq2
        cases h
        obtain ⟨z, hz, hze⟩ := exceptMapList_error_mem f xs e heq2
        exact ⟨z, List.mem_cons_of_mem x hz, hze⟩
      · rename_i ys heq2
        cases h

/-! ### Lemmas about line tokenization and the table reader -/

theorem rowFields_ok (split : String → List String) (n : Nat) (l : String)
    (h : (split l).length ≤ n) : rowFields split n l = .ok (split l) := by
  simp only [rowFields]
  rw [if_neg (Nat.not_lt.mpr h)]

theorem rowFields_wide (split : String → List String) (n : Nat) (l : String)
    (h : n < (split l).length) :
    rowFields split n l = .error (.parserError (split l).length) := by
  simp only [rowFields]
  rw [if_pos h]

theorem rowFields_error_shape (split : String → List String) (n : Nat)
    (l : String) (e : PyError) (h : rowFields split n l = .error e) :
    ∃ m, e = .parserError m := by
  simp only [rowFields] at h
  split at h
  · cases h
    exact ⟨_, rfl⟩
  · cases h

theorem readTableCore_cons (q : Bool) (first : String) (rest : List String) :
    readTableCore q (first :: rest) =
      match exceptMapList (rowFields (lineSplit q) (lineSplit q first).length)
          (first :: rest) with
      | .error e => .error e
      | .ok fss =>
        .ok { index := fss.map (fun fs => fs.headD "")
              rows := fss.map (fun fs =>
                padRow ((lineSplit q first).length - 1) fs.tail)
              ncols := (lineSplit q first).length - 1 } := rfl

theorem splitMinGo_no_quote :
    ∀ (cs : List Char) (acc : String), (∀ c ∈ cs, c ≠ quoteChar) →
      splitMinGo cs acc false = splitNoneGo cs acc
  | [], _, _ => rfl
  | c :: cs, acc, h => by
    simp only [splitMinGo, splitNoneGo]
    by_cases hsp : c = ' '
    · rw [if_pos hsp, if_pos hsp,
        splitMinGo_no_quote cs "" (fun d hd => h d (List.mem_cons_of_mem c hd))]
    · have hq : ¬(c = quoteChar ∧ acc = "") :=
        fun hh => h c (List.mem_cons_self c cs) hh.1
      rw [if_neg hsp, if_neg hsp, if_neg hq,
        splitMinGo_no_quote cs (acc.push c)
          (fun d hd => h d (List.mem_cons_of_mem c hd))]

theorem splitMin_no_quote (l : String) (h : ∀ c ∈ l.data, c ≠ quoteChar) :
    splitMin l = splitNone l :=
  splitMinGo_no_quote l.data "" h

theorem readTableCore_quote_indep (ls : List String)
    (h : ∀ l ∈ ls, ∀ c ∈ l.data, c ≠ quoteChar) :
    readTableCore false ls = readTableCore true ls := by
  cases ls with
  | nil => rfl
  | cons first rest =>
    have hsp : ∀ l ∈ first :: rest, lineSplit false l = lineSplit true l := by
      intro l hl
      show splitMin l = splitNone l
      exact splitMin_no_quote l (h l hl)
    rw [readTableCore_cons, readTableCore_cons,
      hsp first (List.mem_cons_self first rest),
      exceptMapList_congr
        (rowFields (lineSplit false) (lineSplit true first).length)
        (rowFields (lineSplit true) (lineSplit true first).length)
        (first :: rest)
        (fun l hl => by simp only [rowFields, hsp l hl])]

/-! ### Lemmas about label-based row selection -/

theorem locFilter_not_mem (t : String) :
    ∀ (index : List String) (rows : List (List Cell)), t ∉ index →
      ((index.zip rows).filter (fun p => decide (p.1 = t))).map Prod.snd = [] := by
  intro index
  induction index with
  | nil => intro rows _; simp
  | cons a is ih =>
    intro rows h
    cases rows with
    | nil => simp
    | cons r rs =>
      have hat : ¬a = t := fun hh => h (hh ▸ List.mem_cons_self a is)
      have hts : t ∉ is := fun hh => h (List.mem_cons_of_mem a hh)
      simp only [List.zip_cons_cons, List.filter_cons, decide_eq_true_eq]
      rw [if_neg hat]
      exact ih rs hts

theorem locFilter_singleton (t : String) :
    ∀ (index : List String) (rows : List (List Cell)),
      index.Nodup → rows.length = index.length → t ∈ index →
      ∃ r ∈ rows,
        ((index.zip rows).filter (fun p => decide (p.1 = t))).map Prod.snd = [r] := by
  intro index
  induction index with
  | nil => intro rows _ _ hmem; cases hmem
  | cons a is ih =>
    intro rows hnd hlen hmem
    cases rows with
    | nil => simp at hlen
    | cons r rs =>
      have hlen2 : rs.length = is.length := by simpa using hlen
      by_cases hat : a = t
      · refine ⟨r, List.mem_cons_self r rs, ?_⟩
        have hts : t ∉ is := hat ▸ (List.nodup_cons.mp hnd).1
        simp only [List.zip_cons_cons, List.filter_cons, decide_eq_true_eq]
        rw [if_pos hat, List.map_cons, locFilter_not_mem t is rs hts]
      · have hmem2 : t ∈ is := by
          rcases List.mem_cons.mp hmem with h1 | h2
          · exact absurd h1.symm hat
          · exact h2
        obtain ⟨r2, hr2, heq⟩ := ih rs (List.nodup_cons.mp hnd).2 hlen2 hmem2
        refine ⟨r2, List.mem_cons_of_mem r hr2, ?_⟩
        simp only [List.zip_cons_cons, List.filter_cons, decide_eq_true_eq]
        rw [if_neg hat]
        exact heq

theorem locFilter_ne_nil (t : String) :
    ∀ (index : List String) (rows : List (List Cell)),
      rows.length = index.length → t ∈ index →
      ((index.zip rows).filter (fun p => decide (p.1 = t))).map Prod.snd ≠ [] := by
  intro index
  induction index with
  | nil => intro rows _ hmem; cases hmem
  | cons a is ih =>
    intro rows hlen hmem
    cases rows with
    | nil => simp at hlen
    | cons r rs =>
      have hlen2 : rs.length = is.length := by simpa using hlen
      simp only [List.zip_cons_cons, List.filter_cons, decide_eq_true_eq]
      by_cases hat : a = t
      · rw [if_pos hat]
        simp
      · rw [if_neg hat]
        have hmem2 : t ∈ is := by
          rcases List.mem_cons.mp hmem with h1 | h2
          · exact absurd h1.symm hat
          · exact h2
        exact ih rs hlen2 hmem2

theorem matchRows_mem_rows (df : DataFrame) (t : String) (r : List Cell)
    (h : r ∈ df.matchRows t) : r ∈ df.rows := by
  simp only [DataFrame.matchRows, List.mem_map] at h
  obtain ⟨⟨a, r2⟩, hpr, rfl⟩ := h
  exact (List.of_mem_zip (List.mem_of_mem_filter hpr)).2

theorem loc_of_contains (df : DataFrame) (t : String)
    (hlen : df.rows.length = df.index.length) (hmem : t ∈ df.index) :
    df.loc t = .ok (df.locVal t) ∧ (df.locVal t).toRows = df.matchRows t := by
  have hne : df.matchRows t ≠ [] := locFilter_ne_nil t df.index df.rows hlen hmem
  rcases h : df.matchRows t with _ | ⟨r, _ | ⟨r2, rs⟩⟩
  · exact absurd h hne
  · exact ⟨by simp [DataFrame.loc, DataFrame.locVal, h],
      by simp [DataFrame.locVal, h, NDVal.toRows]⟩
  · exact ⟨by simp [DataFrame.loc, DataFrame.locVal, h],
      by simp [DataFrame.locVal, h, NDVal.toRows]⟩

theorem npRandomUniformM_length (lo hi : ℚ) (rand : Nat → Nat → ℚ) (n d : Nat) :
    (npRandomUniformM lo hi rand n d).length = n := by
  simp [npRandomUniformM]

theorem npRandomUniformM_row_length (lo hi : ℚ) (rand : Nat → Nat → ℚ)
    (n d : Nat) (r : List ℚ) (h : r ∈ npRandomUniformM lo hi rand n d) :
    r.length = d := by
  simp only [npRandomUniformM, List.mem_map] at h
  obtain ⟨i, _, rfl⟩ := h
  simp

theorem flatten_map_singleton {α β : Type} (f : α → β) :
    ∀ l : List α, (l.map (fun x => [f x])).flatten = l.map f
  | [] => rfl
  | x :: xs => by
    simp only [List.map_cons, List.flatten_cons, flatten_map_singleton f xs,
      List.singleton_append]

theorem npVstack_ok {α : Type} (vs : List (NDVal α)) (c : Nat)
    (hne : vs ≠ [])
    (hlen : ∀ v ∈ vs, ∀ r ∈ v.toRows, r.length = c) :
    npVstack vs = .ok ((vs.map NDVal.toRows).flatten) := by
  have hall : ∀ r ∈ (vs.map NDVal.toRows).flatten, r.length = c := by
    intro r hr
    simp only [List.mem_flatten, List.mem_map] at hr
    obtain ⟨l, ⟨w, hw, rfl⟩, hrl⟩ := hr
    exact hlen w hw r hrl
  cases vs with
  | nil => exact absurd rfl hne
  | cons v rest =>
    have hcond : (((v :: rest).map NDVal.toRows).flatten.all
        (fun r => r.length ==
          (((v :: rest).map NDVal.toRows).flatten.headD []).length)) = true := by
      rcases hfl : ((v :: rest).map NDVal.toRows).flatten with _ | ⟨r0, rrest⟩
      · rfl
      · apply List.all_eq_true.mpr
        intro r hr
        have h1 : r.length = c := hall r (by rw [hfl]; exact hr)
        have h2 : r0.length = c := hall r0 (by rw [hfl]; exact List.mem_cons_self r0 rrest)
        simp [h1, h2]
    simp only [npVstack]
    rw [if_pos hcond]

/-! ### Lookup claims C1, C2, C3 -/

/-- C1: on a constructed embedding (pretrained from a parsed frame satisfying
the spec's data-model invariants — row/label lock-step and distinct tokens —
or random-initialized from a term-index dict whose indices address the
matrix), every contained token's lookup succeeds with a 1-D vector whose
length is the `dimension` property, i.e. the matrix column count. -/
theorem claim1_lookup_contained :
    (∀ df : DataFrame, df.WF → df.index.Nodup → ∀ t : String,
      (mkPretrained df).containsTok t = true →
      ∃ r : List Cell, (mkPretrained df).entityToVec t = .ok (.vec r) ∧
        r.length = (mkPretrained df).dimension) ∧
    (∀ (vocab : List (String × Nat)) (d : Nat) (scale : ℚ) (rand : Nat → Nat → ℚ),
      (∀ p ∈ vocab, p.2 < vocab.length) → ∀ t : String,
      (randomInit vocab d scale rand).containsTok t = true →
      ∃ r : List ℚ, (randomInit vocab d scale rand).entityToVec t = .ok (.vec r) ∧
        r.length = (randomInit vocab d scale rand).dimension) := by
  constructor
  · intro df hwf hnd t hc
    have hmem : t ∈ df.index := of_decide_eq_true hc
    obtain ⟨r, hr, hmr⟩ := locFilter_singleton t df.index df.rows hnd hwf.1 hmem
    have hmr2 : df.matchRows t = [r] := hmr
    refine ⟨r, ?_, ?_⟩
    · show df.loc t = .ok (.vec r)
      simp [DataFrame.loc, hmr2]
    · exact hwf.2 r hr
  · intro vocab d scale rand hv t hc
    obtain ⟨p, hp⟩ := Option.isSome_iff_exists.mp hc
    have hmemv : p ∈ vocab := List.mem_of_find?_eq_some hp
    have hlt : p.2 < (randomInit vocab d scale rand).matrixRows.length := by
      have hlen : (randomInit vocab d scale rand).matrixRows.length = vocab.length :=
        npRandomUniformM_length _ _ _ _ _
      rw [hlen]
      exact hv p hmemv
    have hget : (randomInit vocab d scale rand).matrixRows.get? p.2 =
        some ((randomInit vocab d scale rand).matrixRows.get ⟨p.2, hlt⟩) :=
      List.get?_eq_get hlt
    refine ⟨(randomInit vocab d scale rand).matrixRows.get ⟨p.2, hlt⟩, ?_, ?_⟩
    · simp only [RandomInitializedEmbedding.entityToVec, hp, hget]
    · exact npRandomUniformM_row_length (-scale) scale rand vocab.length d _
        (List.get_mem _ _ hlt)

/-- Witness for C1 at a concrete two-token frame of dimension 1. -/
theorem claim1_witness :
    ∃ r : List Cell,
      (mkPretrained ⟨["a", "b"], [[Cell.raw "0.1"], [Cell.raw "0.2"]], 1⟩).entityToVec
          "a" = .ok (.vec r) ∧
      r.length =
        (mkPretrained ⟨["a", "b"], [[Cell.raw "0.1"], [Cell.raw "0.2"]], 1⟩).dimension :=
  claim1_lookup_contained.1 ⟨["a", "b"], [[Cell.raw "0.1"], [Cell.raw "0.2"]], 1⟩
    (by constructor <;> decide) (by decide) "a" (by decide)

/-- C2: on a constructed embedding of either variant, looking up a token with
`contains(t) == false` raises the `KeyError` carrying that token — the dict
miss or `DataFrame.loc` miss modelling `UnknownTokenError` — and returns no
value (the embedding itself, a pure value here, is untouched). -/
theorem claim2_lookup_missing :
    (∀ (df : DataFrame) (t : String),
      (mkPretrained df).containsTok t = false →
      (mkPretrained df).entityToVec t = .error (.keyError t)) ∧
    (∀ (vocab : List (String × Nat)) (d : Nat) (scale : ℚ) (rand : Nat → Nat → ℚ)
      (t : String),
      (randomInit vocab d scale rand).containsTok t = false →
      (randomInit vocab d scale rand).entityToVec t = .error (.keyError t)) := by
  constructor
  · intro df t hc
    have hmem : t ∉ df.index := of_decide_eq_false hc
    have hmr : df.matchRows t = [] := locFilter_not_mem t df.index df.rows hmem
    show df.loc t = .error (.keyError t)
    simp [DataFrame.loc, hmr]
  · intro vocab d scale rand t hc
    have h2 : ((randomInit vocab d scale rand).vocab.find?
        (fun p => decide (p.1 = t))).isSome = false := hc
    have hfind : (randomInit vocab d scale rand).vocab.find?
        (fun p => decide (p.1 = t)) = none :=
      Option.not_isSome_iff_eq_none.mp (by rw [h2]; exact Bool.false_ne_true)
    simp only [RandomInitializedEmbedding.entityToVec, hfind]

/-- Witness for C2 at a concrete frame and an out-of-vocabulary token. -/
theorem claim2_witness :
    (mkPretrained ⟨["a"], [[Cell.raw "0.1"]], 1⟩).entityToVec "oov" =
      .error (.keyError "oov") :=
  claim2_lookup_missing.1 ⟨["a"], [[Cell.raw "0.1"]], 1⟩ "oov" (by decide)

/-- C3: on a constructed embedding of either variant, `__getitem__` on a
nonempty list of contained tokens succeeds and returns exactly the vertical
stacking of each token's own lookup rows, in the order the tokens were
requested — determined solely by the per-token selection, hence independent
of where the tokens are stored in the matrix. -/
theorem claim3_lookup_many_order :
    (∀ df : DataFrame, df.WF → ∀ ts : List String, ts ≠ [] →
      (∀ t ∈ ts, (mkPretrained df).containsTok t = true) →
      (mkPretrained df).getItemList ts =
        .ok ((ts.map (fun t => df.matchRows t)).flatten)) ∧
    (∀ (vocab : List (String × Nat)) (d : Nat) (scale : ℚ) (rand : Nat → Nat → ℚ),
      (∀ p ∈ vocab, p.2 < vocab.length) → ∀ ts : List String, ts ≠ [] →
      (∀ t ∈ ts, (randomInit vocab d scale rand).containsTok t = true) →
      (randomInit vocab d scale rand).getItemList ts =
        .ok (ts.map (randomInit vocab d scale rand).rowOf)) := by
  constructor
  · intro df hwf ts hne hc
    have hmem : ∀ t ∈ ts, t ∈ df.index := fun t ht => of_decide_eq_true (hc t ht)
    have hloc : ∀ t ∈ ts, (mkPretrained df).entityToVec t = .ok (df.locVal t) :=
      fun t ht => (loc_of_contains df t hwf.1 (hmem t ht)).1
    have hmapped := exceptMapList_ok _ df.locVal ts hloc
    have hstack := npVstack_ok (ts.map df.locVal) df.ncols
      (by intro h; exact hne (List.map_eq_nil_iff.mp h))
      (by
        intro v hv r hr
        simp only [List.mem_map] at hv
        obtain ⟨t, ht, rfl⟩ := hv
        have hrows : (df.locVal t).toRows = df.matchRows t :=
          (loc_of_contains df t hwf.1 (hmem t ht)).2
        rw [hrows] at hr
        exact hwf.2 r (matchRows_mem_rows df t r hr))
    have hrw : (ts.map df.locVal).map NDVal.toRows = ts.map (fun t => df.matchRows t) := by
      rw [List.map_map]
      exact List.map_congr_left
        (fun t ht => (loc_of_contains df t hwf.1 (hmem t ht)).2)
    simp only [PretrainedEmbedding.getItemList, hmapped]
    rw [hstack, hrw]
  · intro vocab d scale rand hv ts hne hc
    have hvec : ∀ t ∈ ts, (randomInit vocab d scale rand).entityToVec t =
        .ok (.vec ((randomInit vocab d scale rand).rowOf t)) := by
      intro t ht
      obtain ⟨p, hp⟩ := Option.isSome_iff_exists.mp (hc t ht)
      have hmemv : p ∈ vocab := List.mem_of_find?_eq_some hp
      have hlt : p.2 < (randomInit vocab d scale rand).matrixRows.length := by
        have hlen : (randomInit vocab d scale rand).matrixRows.length = vocab.length :=
          npRandomUniformM_length _ _ _ _ _
        rw [hlen]
        exact hv p hmemv
      have hget : (randomInit vocab d scale rand).matrixRows.get? p.2 =
          some ((randomInit vocab d scale rand).matrixRows.get ⟨p.2, hlt⟩) :=
        List.get?_eq_get hlt
      simp only [RandomInitializedEmbedding.entityToVec,
        RandomInitializedEmbedding.rowOf, hp, hget]
    have hmapped := exceptMapList_ok _
      (fun t => NDVal.vec ((randomInit vocab d scale rand).rowOf t)) ts hvec
    have hstack := npVstack_ok
      (ts.map (fun t => NDVal.vec ((randomInit vocab d scale rand).rowOf t))) d
      (by intro h; exact hne (List.map_eq_nil_iff.mp h))
      (by
        intro v hvm r hr
        simp only [List.mem_map] at hvm
        obtain ⟨t, ht, rfl⟩ := hvm
        simp only [NDVal.toRows, List.mem_singleton] at hr
        subst hr
        obtain ⟨p, hp⟩ := Option.isSome_iff_exists.mp (hc t ht)
        have hmemv : p ∈ vocab := List.mem_of_find?_eq_some hp
        have hlt : p.2 < (randomInit vocab d scale rand).matrixRows.length := by
          have hlen : (randomInit vocab d scale rand).matrixRows.length = vocab.length :=
            npRandomUniformM_length _ _ _ _ _
          rw [hlen]
          exact hv p hmemv
        have hget : (randomInit vocab d scale rand).matrixRows.get? p.2 =
            some ((randomInit vocab d scale rand).matrixRows.get ⟨p.2, hlt⟩) :=
          List.get?_eq_get hlt
        simp only [RandomInitializedEmbedding.rowOf, hp, hget]
        exact npRandomUniformM_row_length (-scale) scale rand vocab.length d _
          (List.get_mem _ _ hlt))
    simp only [RandomInitializedEmbedding.getItemList, hmapped]
    rw [hstack, List.map_map]
    show Except.ok ((ts.map
      (fun t => [(randomInit vocab d scale rand).rowOf t])).flatten) = _
    rw [flatten_map_singleton]

/-- Witness for C3 at a concrete two-token frame, requesting the tokens in
the order opposite to their storage order. -/
theorem claim3_witness :
    (mkPretrained ⟨["a", "b"], [[Cell.raw "0.1"], [Cell.raw "0.2"]], 1⟩).getItemList
        ["b", "a"] =
      .ok ((["b", "a"].map
        (fun t => DataFrame.matchRows ⟨["a", "b"],
          [[Cell.raw "0.1"], [Cell.raw "0.2"]], 1⟩ t)).flatten) :=
  claim3_lookup_many_order.1 ⟨["a", "b"], [[Cell.raw "0.1"], [Cell.raw "0.2"]], 1⟩
    (by constructor <;> decide) ["b", "a"] (by decide) (by decide)

/-! ### Claims about the façade state: setter frame and dimension guard -/

/-- C10: on every constructed embedding (pretrained or random-initialized),
`__getitem__` with the empty token list builds the empty comprehension and
hands it to `np.vstack`, which raises `ValueError` ("need at least one array
to concatenate") instead of returning an empty 0×D matrix. -/
theorem claim10_lookup_many_empty_fails :
    (∀ e : PretrainedEmbedding, e.getItemList [] = .error .valueError) ∧
    (∀ e : RandomInitializedEmbedding, e.getItemList [] = .error .valueError) :=
  ⟨fun _ => rfl, fun _ => rfl⟩

/-- C9: the `matrix` setter assigns `self._matrix` and touches nothing else;
`self._vocab` — the dict on the base state, the captured label array on a
pretrained instance — is unchanged, so every membership answer is preserved,
whatever the row count or row labels of the new matrix. -/
theorem claim9_setter_frame :
    (∀ (e : EmbeddingBase) (m : Option NpMatrix) (t : String),
      (e.setMatrix m).containsTok t = e.containsTok t ∧
        (e.setMatrix m).vocab = e.vocab) ∧
    (∀ (e : PretrainedEmbedding) (df : DataFrame) (t : String),
      (e.setMatrix df).containsTok t = e.containsTok t ∧
        (e.setMatrix df).vocabArr = e.vocabArr) :=
  ⟨fun _ _ _ => ⟨rfl, rfl⟩, fun _ _ _ => ⟨rfl, rfl⟩⟩

/-- C7 counterexample: on the freshly initialized base state, whose matrix is
unset, the `dimension` property evaluates `None.shape` — failing by
dereferencing the null matrix (`AttributeError`) — and not with the guarded
designated failure `dimensionSpec` prescribes, so the claimed behavior
`dimension = dimensionSpec` is false at this state. -/
theorem claim7_cex :
    EmbeddingBase.mkInit.dimension = .error .attributeNone ∧
    EmbeddingBase.mkInit.dimensionSpec = .error .unsetMatrix ∧
    EmbeddingBase.mkInit.dimension ≠ EmbeddingBase.mkInit.dimensionSpec :=
  ⟨rfl, rfl, by
    simp [EmbeddingBase.dimension, EmbeddingBase.dimensionSpec, EmbeddingBase.mkInit]⟩

/-- C7 (amended): the `dimension` accessor has no null guard: with the matrix
unset it fails with the `AttributeError` arising from dereferencing the null
matrix (`None.shape`), and with the matrix set it returns the column count. -/
theorem claim7_dimension_behavior (e : EmbeddingBase) :
    (e.matrix = none → e.dimension = .error .attributeNone) ∧
    (∀ m : NpMatrix, e.matrix = some m → e.dimension = .ok m.ncols) := by
  constructor
  · intro h
    simp [EmbeddingBase.dimension, h]
  · intro m h
    simp [EmbeddingBase.dimension, h]

/-- Witness for C7 (amended) at the freshly initialized state. -/
theorem claim7_witness :
    EmbeddingBase.mkInit.dimension = .error .attributeNone :=
  (claim7_dimension_behavior EmbeddingBase.mkInit).1 rfl

/-- C6: random-initialized construction fills a `len(vocab) × D` matrix by
`np.random.uniform(-scale, scale, ...)`; under the sampler's contract (a
unit-interval randomness source) every entry lies in the closed interval
`[-scale, scale]`, and the `dimension` property returns `D`. -/
theorem claim6_random_bounds (vocab : List (String × Nat)) (d : Nat)
    (scale : ℚ) (rand : Nat → Nat → ℚ)
    (hs : 0 ≤ scale) (hr : ∀ i j, 0 ≤ rand i j ∧ rand i j < 1) :
    (∀ r ∈ (randomInit vocab d scale rand).matrixRows, ∀ x ∈ r,
        -scale ≤ x ∧ x ≤ scale) ∧
    (randomInit vocab d scale rand).dimension = d := by
  refine ⟨?_, rfl⟩
  intro r hrm x hx
  simp only [randomInit, npRandomUniformM, List.mem_map] at hrm
  obtain ⟨i, _, rfl⟩ := hrm
  simp only [List.mem_map] at hx
  obtain ⟨j, _, rfl⟩ := hx
  obtain ⟨h0, h1⟩ := hr i j
  constructor
  · nlinarith
  · nlinarith

/-- Witness for C6 at vocabulary `{"a", "b"}`, dimension 4, scale 1/2, with a
concrete admissible randomness source. -/
theorem claim6_witness :
    (∀ r ∈ (randomInit [("a", 0), ("b", 1)] 4 (1/2) (fun _ _ => 0)).matrixRows,
        ∀ x ∈ r, -(1/2 : ℚ) ≤ x ∧ x ≤ 1/2) ∧
    (randomInit [("a", 0), ("b", 1)] 4 (1/2) (fun _ _ => 0)).dimension = 4 :=
  claim6_random_bounds [("a", 0), ("b", 1)] 4 (1/2) (fun _ _ => 0)
    (by norm_num) (fun _ _ => by norm_num)

/-! ### Parser claims C4, C5, C8 -/

/-- C4 counterexample: a GloVe-format file whose second line has fewer fields
than the dimension established by the first line does NOT fail construction —
`pd.read_table` silently pads the short row with NaN. The claim that every
field-count disagreement is a fatal `MalformedRowError` is therefore false. -/
theorem claim4_cex :
    readTable true 0 ["a 0.1 0.2", "b 0.5"] =
      .ok { index := ["a", "b"]
            rows := [[Cell.raw "0.1", Cell.raw "0.2"], [Cell.raw "0.5", Cell.nan]]
            ncols := 2 } := by
  rfl

/-- C4 (amended): against the field count established by the first remaining
line, a line with MORE fields aborts parsing with the fatal `ParserError`
(the spec's `MalformedRowError`), while a line with FEWER fields is silently
padded with NaN cells; rows are never truncated. -/
theorem claim4_width_behavior (q : Bool) (k : Nat) (lines : List String)
    (first : String) (rest : List String)
    (h : (lines.drop k).filter (fun l => l != "") = first :: rest) :
    ((∃ l ∈ first :: rest,
        (lineSplit q first).length < (lineSplit q l).length) →
      ∃ m, readTable q k lines = .error (.parserError m)) ∧
    ((∀ l ∈ first :: rest,
        (lineSplit q l).length ≤ (lineSplit q first).length) →
      readTable q k lines = .ok
        { index := (first :: rest).map (fun l => (lineSplit q l).headD "")
          rows := (first :: rest).map (fun l =>
            padRow ((lineSplit q first).length - 1) (lineSplit q l).tail)
          ncols := (lineSplit q first).length - 1 }) := by
  have hrt : readTable q k lines = readTableCore q (first :: rest) := by
    rw [readTable, h]
  constructor
  · intro hex
    obtain ⟨l, hl, hlen⟩ := hex
    obtain ⟨e, he⟩ := exceptMapList_error_exists
      (rowFields (lineSplit q) (lineSplit q first).length) (first :: rest)
      ⟨l, hl, _, rowFields_wide _ _ _ hlen⟩
    obtain ⟨x, _, hxe⟩ := exceptMapList_error_mem _ _ _ he
    obtain ⟨m, rfl⟩ := rowFields_error_shape _ _ _ _ hxe
    refine ⟨m, ?_⟩
    rw [hrt, readTableCore_cons, he]
  · intro hall
    have hok := exceptMapList_ok
      (rowFields (lineSplit q) (lineSplit q first).length)
      (fun l => lineSplit q l) (first :: rest)
      (fun l hl => rowFields_ok _ _ _ (hall l hl))
    rw [hrt, readTableCore_cons, hok]
    simp [List.map_map, Function.comp]

/-- Witness for C4 (amended), first part: an over-wide third-line row aborts
with `ParserError`. -/
theorem claim4_witness :
    ∃ m, readTable true 0 ["a 0.1 0.2", "b 0.3 0.4 0.5"] =
      .error (.parserError m) :=
  (claim4_width_behavior true 0 ["a 0.1 0.2", "b 0.3 0.4 0.5"] "a 0.1 0.2"
      ["b 0.3 0.4 0.5"] (by decide)).1
    ⟨"b 0.3 0.4 0.5", by decide, by decide⟩

/-- C5 counterexample: the two loaders differ in quoting (`Word2Vec` keeps
pandas' default minimal quoting, `Glove` passes `csv.QUOTE_NONE`), so on a
GloVe file whose token carries literal double quotes, prefixing a header and
loading with `Word2Vec` does NOT yield identical lookups: the word2vec path
strips the quotes and indexes token `a`, while the GloVe path indexes the
raw token and raises `KeyError` on `a`. -/
theorem claim5_cex :
    (word2vecLoad ["1 2", "\"a\" 0.1 0.2"]).map (fun e => e.containsTok "a") =
      .ok true ∧
    (gloveLoad ["\"a\" 0.1 0.2"]).map (fun e => e.containsTok "a") = .ok false ∧
    (word2vecLoad ["1 2", "\"a\" 0.1 0.2"]).map (fun e => e.entityToVec "a") =
      .ok (.ok (.vec [Cell.raw "0.1", Cell.raw "0.2"])) ∧
    (gloveLoad ["\"a\" 0.1 0.2"]).map (fun e => e.entityToVec "a") =
      .ok (.error (.keyError "a")) := by
  refine ⟨rfl, rfl, rfl, rfl⟩

/-- C5 (amended): for content free of the quote character — the only point
where the two parser configurations differ — loading the content with
`Glove` and loading the header-prefixed content with `Word2Vec` produce
equal embeddings, hence identical `contains`, `dimension` and lookup results
for every token. -/
theorem claim5_header_equiv (hdr : String) (content : List String)
    (h : ∀ l ∈ content, ∀ c ∈ l.data, c ≠ quoteChar) :
    word2vecLoad (hdr :: content) = gloveLoad content := by
  unfold word2vecLoad gloveLoad readTable
  simp only [List.drop_succ_cons, List.drop_zero]
  rw [readTableCore_quote_indep (content.filter (fun l => l != ""))
    (fun l hl => h l (List.mem_of_mem_filter hl))]

/-- Witness for C5 (amended) on the spec's three-token, two-dimension file. -/
theorem claim5_witness :
    word2vecLoad ["3 2", "fawn 0.1 0.2", "abandon 0.3 0.4", "cat 0.5 0.6"] =
      gloveLoad ["fawn 0.1 0.2", "abandon 0.3 0.4", "cat 0.5 0.6"] :=
  claim5_header_equiv "3 2" ["fawn 0.1 0.2", "abandon 0.3 0.4", "cat 0.5 0.6"]
    (by decide)

/-- C8 counterexample: a GloVe file whose two rows share the token `a`
constructs successfully — no `DuplicateTokenError` exists anywhere in the
reader — and both rows are retained: the duplicate label appears twice in
the index, and looking the token up returns the 2×D block of both rows. -/
theorem claim8_cex :
    gloveLoad ["a 0.1 0.2", "a 0.3 0.4"] =
      .ok (mkPretrained
        { index := ["a", "a"]
          rows := [[Cell.raw "0.1", Cell.raw "0.2"], [Cell.raw "0.3", Cell.raw "0.4"]]
          ncols := 2 }) ∧
    (mkPretrained
        { index := ["a", "a"]
          rows := [[Cell.raw "0.1", Cell.raw "0.2"], [Cell.raw "0.3", Cell.raw "0.4"]]
          ncols := 2 }).entityToVec "a" =
      .ok (.mat [[Cell.raw "0.1", Cell.raw "0.2"], [Cell.raw "0.3", Cell.raw "0.4"]]) := by
  refine ⟨rfl, rfl⟩

/-- C8 (amended): pretrained construction performs no duplicate detection —
its only failure modes are the empty-input and over-wide-row parse errors —
and a token indexed by two or more rows keeps all of them: lookup returns
the full block of matching rows rather than a single (first- or last-wins)
vector. -/
theorem claim8_duplicates_kept :
    (∀ (q : Bool) (k : Nat) (lines : List String) (e : PyError),
      readTable q k lines = .error e →
      e = .emptyData ∨ ∃ m, e = .parserError m) ∧
    (∀ (df : DataFrame) (t : String), 2 ≤ (df.matchRows t).length →
      (mkPretrained df).entityToVec t = .ok (.mat (df.matchRows t))) := by
  constructor
  · intro q k lines e h
    rw [readTable] at h
    cases hls : (lines.drop k).filter (fun l => l != "") with
    | nil =>
      rw [hls] at h
      left
      have : Except.error (ε := PyError) (α := DataFrame) .emptyData = .error e := h
      cases this
      rfl
    | cons first rest =>
      rw [hls, readTableCore_cons] at h
      right
      split at h
      · rename_i e2 heq
        cases h
        obtain ⟨x, _, hxe⟩ := exceptMapList_error_mem _ _ _ heq
        exact rowFields_error_shape _ _ _ _ hxe
      · rename_i fss heq
        cases h
  · intro df t h2
    rcases hmr : df.matchRows t with _ | ⟨r, _ | ⟨r2, rs⟩⟩
    · rw [hmr] at h2
      simp at h2
    · rw [hmr] at h2
      simp at h2
    · show df.loc t = _
      simp [DataFrame.loc, hmr]

/-- Witness for C8 (amended) at the duplicated-token frame. -/
theorem claim8_witness :
    (mkPretrained
        { index := ["a", "a"]
          rows := [[Cell.raw "0.3"], [Cell.raw "0.4"]]
          ncols := 1 }).entityToVec "a" =
      .ok (.mat (DataFrame.matchRows
        { index := ["a", "a"]
          rows := [[Cell.raw "0.3"], [Cell.raw "0.4"]]
          ncols := 1 } "a")) :=
  claim8_duplicates_kept.2
    { index := ["a", "a"]
      rows := [[Cell.raw "0.3"], [Cell.raw "0.4"]]
      ncols := 1 } "a" (by decide)

end Matchzoo
